import Mathlib

/-!
Verification of the task-classification and persistence logic of the
`todoist` repository, shallowly embedded in Lean 4.

Conventions of the embedding:
* Python `str.lower()` is modelled by `strLower` (ASCII lowering);
  every keyword in the program is lowercase ASCII.
* Python substring test `kw in s` is modelled by `strContains s kw`,
  i.e. list-of-characters infix.
* Durations are modelled in exact decimal arithmetic instead of IEEE
  floats: `estimate_duration` returns tenths of an hour, and
  `extract_hours_from_labels` returns hundredths of an hour.  Every value
  reachable in the Python code is an exact multiple of 0.05 before
  rounding, Python's `round` (round-half-to-even on floats) agrees with
  exact rational round-half-to-even on all of them, so the integer model
  is exact.  `roundHundredthsToTenths` below is that rounding.
-/

namespace Todoist

/-- Model of Python `str.lower()`: ASCII lowering of each character
(every keyword in the program is lowercase ASCII). -/
def strLower (s : String) : String :=
  ⟨s.data.map Char.toLower⟩

/-- Model of the Python substring test `pat in s`, on the underlying character lists. -/
def strContains (s pat : String) : Bool :=
  decide (pat.data <:+: s.data)

/-- Model of Python `any(keyword in content for keyword in keywords)`. -/
def containsAny (content : String) (kws : List String) : Bool :=
  kws.any fun k => strContains content k

/-! ### Keyword tables of `AntiImperialistsAnalyzer.enhance_description`
(src/anti_imperialists.py lines 72-146, identical in src/main.py). -/

def direct_action_keywords : List String :=
  ["protest", "rally", "march", "demonstration", "action", "blockade", "occupation", "strike"]

def education_keywords : List String :=
  ["read", "study", "research", "learn", "book", "article", "theory", "analysis", "teach"]

def meeting_keywords : List String :=
  ["meet", "call", "discussion", "zoom", "conference", "talk", "phone"]

def content_creation_keywords : List String :=
  ["write", "draft", "edit", "post", "blog", "statement", "article", "flyer"]

def organizing_keywords : List String :=
  ["organize", "plan", "coordinate", "schedule", "logistics", "prepare"]

def outreach_keywords : List String :=
  ["email", "contact", "reach out", "follow up", "outreach", "connect"]

def fundraising_keywords : List String :=
  ["fund", "donate", "money", "budget", "fundraiser", "donation"]

def digital_work_keywords : List String :=
  ["website", "social media", "online", "digital", "internet", "dns", "substack"]

/-- The `category_keywords` dict, in Python declaration (= iteration) order. -/
def category_keywords : List (String × List String) :=
  [("Direct Action", direct_action_keywords),
   ("Education", education_keywords),
   ("Meeting/Communication", meeting_keywords),
   ("Content Creation", content_creation_keywords),
   ("Organizing", organizing_keywords),
   ("Outreach", outreach_keywords),
   ("Fundraising", fundraising_keywords),
   ("Digital Work", digital_work_keywords)]

/-- The `task_type_map` dict of `enhance_description`. -/
def task_type_map : List (String × String) :=
  [("meeting", "Coalition Meeting"),
   ("zoom", "Virtual Meeting"),
   ("call", "Phone Call"),
   ("protest", "Street Action"),
   ("rally", "Mass Mobilization"),
   ("march", "Public Demonstration"),
   ("research", "Political Research"),
   ("read", "Political Education"),
   ("study", "Theory Study"),
   ("write", "Content Creation"),
   ("draft", "Document Preparation"),
   ("social media", "Digital Organizing"),
   ("website", "Digital Infrastructure"),
   ("dns", "Technical Setup"),
   ("substack", "Publishing Platform"),
   ("fundrais", "Resource Development"),
   ("mutual aid", "Community Support"),
   ("solidarity", "Solidarity Work"),
   ("coalition", "Alliance Building"),
   ("statement", "Political Communication"),
   ("email", "Digital Outreach"),
   ("organize", "Community Organizing"),
   ("plan", "Strategic Planning")]

/-- The `focus_keywords` dict of `enhance_description`. -/
def focus_keywords : List (String × List String) :=
  [("Palestine Solidarity", ["palestine", "gaza", "israel", "bds", "apartheid", "zionism", "occupation"]),
   ("Anti-War", ["war", "military", "pentagon", "intervention", "nato", "sanctions", "imperialism"]),
   ("Racial Justice", ["blm", "black lives", "racism", "police", "white supremacy", "racial"]),
   ("Climate Justice", ["climate", "environment", "pipeline", "fossil", "carbon", "green"]),
   ("Labor Rights", ["labor", "union", "strike", "worker", "wages", "workplace"]),
   ("Immigration Justice", ["immigration", "migrant", "refugee", "ice", "border", "deportation"]),
   ("Housing Justice", ["housing", "tenant", "rent", "eviction", "gentrification", "homeless"]),
   ("Indigenous Solidarity", ["indigenous", "native", "tribal", "land back", "sovereignty"]),
   ("Digital Organizing", ["website", "online", "digital", "internet", "social media", "substack"])]

def high_priority_words : List String :=
  ["urgent", "important", "critical", "deadline", "asap"]

def medium_priority_words : List String :=
  ["soon", "this week", "follow up", "check"]

/-- The `for cat, keywords in table.items(): if any(...): category = cat; break`
loop with fall-through default `dflt`. -/
def scanKeywordTable (content : String) (dflt : String) : List (String × List String) → String
  | [] => dflt
  | (name, kws) :: rest =>
      if containsAny content kws then name else scanKeywordTable content dflt rest

/-- The `for keyword, t_type in task_type_map.items(): if keyword in content: ...; break`
loop with fall-through default `dflt`. -/
def scanTypeMap (content : String) (dflt : String) : List (String × String) → String
  | [] => dflt
  | (kw, ty) :: rest =>
      if strContains content kw then ty else scanTypeMap content dflt rest

/-- The dictionary returned by `enhance_description`. -/
structure Enhanced where
  category : String
  task_type : String
  focus_area : String
  priority : String
  labels : List String
  deriving Repr, DecidableEq

/-- Embedding of `AntiImperialistsAnalyzer.enhance_description(task_content, labels)`
(src/anti_imperialists.py lines 66-154). -/
def enhance_description (task_content : String) (labels : List String) : Enhanced :=
  let content_lower := strLower task_content
  { category := scanKeywordTable content_lower "Other" category_keywords
    task_type := scanTypeMap content_lower "General Organizing" task_type_map
    focus_area := scanKeywordTable content_lower "General Anti-Imperialism" focus_keywords
    priority :=
      if containsAny content_lower high_priority_words then "High"
      else if containsAny content_lower medium_priority_words then "Medium"
      else "Normal"
    labels := labels }

/-! ### `AntiImperialistsAnalyzer.estimate_duration`
(src/anti_imperialists.py lines 156-181).  Hours are modelled in tenths. -/

/-- The `duration_map` dict, values in tenths of an hour
(4.0 ↦ 40, 2.0 ↦ 20, 1.5 ↦ 15, ...). -/
def duration_map : List (String × Nat) :=
  [("Direct Action", 40),
   ("Education", 20),
   ("Meeting/Communication", 15),
   ("Content Creation", 30),
   ("Organizing", 25),
   ("Outreach", 10),
   ("Fundraising", 15),
   ("Digital Work", 20),
   ("Other", 10)]

/-- Python `dict.get(key, dflt)`. -/
def lookupDefault : List (String × Nat) → String → Nat → Nat
  | [], _, d => d
  | (k, v) :: rest, key, d => if k = key then v else lookupDefault rest key d

def quick_words : List String := ["quick", "brief", "short", "simple"]

def major_words : List String := ["major", "comprehensive", "deep", "detailed", "complex"]

def setup_words : List String := ["setup", "install", "configure"]

/-- Round a duration given in hundredths of an hour to tenths of an hour,
half to even: this is what Python's `round(x, 1)` computes on every value
reachable in `estimate_duration` (all reachable products are exact
multiples of 0.05 whose IEEE double is exact at the ties, e.g.
`round(0.75, 1) = 0.8`, `round(1.25, 1) = 1.2`). -/
def roundHundredthsToTenths (n : Nat) : Nat :=
  let q := n / 10
  let r := n % 10
  if r < 5 then q
  else if 5 < r then q + 1
  else if q % 2 = 0 then q else q + 1

/-- Embedding of `AntiImperialistsAnalyzer.estimate_duration(task_content, category)`,
returning tenths of an hour.  The three multiplier branches are the
Python `if`/`elif`/`elif` chain: ×0.5 = ×5/100, ×1.5 = ×15/100,
×1.2 = ×12/100 applied to the base expressed in tenths. -/
def estimate_duration (task_content : String) (category : String) : Nat :=
  let base := lookupDefault duration_map category 10
  let content_lower := strLower task_content
  let hundredths :=
    if containsAny content_lower quick_words then base * 5
    else if containsAny content_lower major_words then base * 15
    else if containsAny content_lower setup_words then base * 12
    else base * 10
  roundHundredthsToTenths hundredths

/-! ### `AntiImperialistsAnalyzer.calculate_actual_duration`
(src/anti_imperialists.py lines 183-198). -/

/-- Round-half-to-even of a rational to an integer. -/
def roundHalfEvenInt (q : ℚ) : ℤ :=
  if q - ⌊q⌋ < 1 / 2 then ⌊q⌋
  else if 1 / 2 < q - ⌊q⌋ then ⌊q⌋ + 1
  else if ⌊q⌋ % 2 = 0 then ⌊q⌋ else ⌊q⌋ + 1

/-- Round a rational to one decimal place, half to even (the model of
Python `round(x, 1)` used for the actual-duration value). -/
def roundRat1 (q : ℚ) : ℚ :=
  (roundHalfEvenInt (q * 10) : ℚ) / 10

/-- Embedding of `AntiImperialistsAnalyzer.calculate_actual_duration(completed_at, item_date)`.
It is parameterised by `parse`, the model of
`datetime.fromisoformat(s.replace('Z', '+00:00'))` returning the timestamp
in seconds; a parse failure (a raised exception, caught by the bare
`except`) is `none`.  The Python truthiness test
`if completed_at and item_date` makes a missing value and the empty
string both falsy; the guard keeps only `0 < hours < 24 * 30`. -/
def calculate_actual_duration (parse : String → Option ℚ) :
    Option String → Option String → Option ℚ
  | some completed_at, some item_date =>
      if completed_at = "" ∨ item_date = "" then none
      else
        match parse completed_at, parse item_date with
        | some completed_time, some created_time =>
            let hours := (completed_time - created_time) / 3600
            if 0 < hours ∧ hours < 24 * 30 then some (roundRat1 hours) else none
        | _, _ => none
  | _, _ => none

/-! ### `TextGenerator.extract_hours_from_labels`
(src/gemini/text_generator.py lines 130-140).  Hours in hundredths. -/

/-- Model of `re.search(r'(\d+)', label)`: the value of the first maximal
run of ASCII digits, or `none` when the string has no digit. -/
def firstNat? : List Char → Option Nat
  | [] => none
  | c :: rest =>
      if c.isDigit then
        some (((c :: rest).takeWhile Char.isDigit).foldl (fun a d => a * 10 + (d.toNat - 48)) 0)
      else firstNat? rest

/-- Model of `round(minutes / 60.0, 2)` in hundredths of an hour: the
nearest integer to `100 * m / 60 = 5 * m / 3`.  A tie is impossible
(`5 * m / 3 = j + 1 / 2` has no integer solution), so the nearest integer
is `⌊5 * m / 3 + 1 / 2⌋ = (10 * m + 3) / 6`, and Python float rounding
agrees. -/
def minutesToHundredths (m : Nat) : Nat :=
  (10 * m + 3) / 6

/-- Embedding of `TextGenerator.extract_hours_from_labels(labels)`: the
first label that contains `min` (or `mins`) and has a digit determines
the result; a `min` label without digits is skipped; no such label
yields 0. -/
def extract_hours_from_labels : List String → Nat
  | [] => 0
  | label :: rest =>
      if strContains label "mins" || strContains label "min" then
        match firstNat? label.data with
        | some minutes => minutesToHundredths minutes
        | none => extract_hours_from_labels rest
      else extract_hours_from_labels rest

/-! ### `Database.save_task` (src/database.py lines 37-59). -/

/-- The `task_data` dict passed to `save_task`: keys `task_id`,
`content`, `completed_at` are always read, the others go through
`.get` with a default, modelled as `Option` fields.  `completed_at`
(a datetime in the source) is left as its raw string. -/
structure TaskData where
  task_id : String
  content : String
  completed_at : String
  project_id : Option String
  labels : Option (List String)
  priority : Option Int
  description : Option String
  deriving Repr, DecidableEq

/-- A row of the `completed_tasks` table (ORM model `CompletedTask`).
`labels` is stored via `json.dumps`, modelled as the list itself. -/
structure CompletedTask where
  task_id : String
  content : String
  completed_at : String
  project_id : Option String
  project_name : Option String
  labels : List String
  priority : Int
  description : String
  deriving Repr, DecidableEq

/-- Embedding of `Database.task_exists(task_id)`: a query filtered by
`task_id` finds a first row. -/
def task_exists (db : List CompletedTask) (task_id : String) : Bool :=
  db.any fun t => t.task_id = task_id

/-- The `CompletedTask(...)` row constructed inside `save_task`, with the
`.get` defaults of the source (`project_id` None, `labels` `[]`,
`priority` 1, `description` empty). -/
def mkCompletedTask (td : TaskData) (project_name : Option String) : CompletedTask :=
  { task_id := td.task_id
    content := td.content
    completed_at := td.completed_at
    project_id := td.project_id
    project_name := project_name
    labels := td.labels.getD []
    priority := td.priority.getD 1
    description := td.description.getD "" }

/-- Embedding of `Database.save_task(task_data, project_name)`: the store
is the list of committed rows, and the result is the returned boolean
together with the store after the call. -/
def save_task (db : List CompletedTask) (td : TaskData) (project_name : Option String) :
    Bool × List CompletedTask :=
  if task_exists db td.task_id then (false, db)
  else (true, db ++ [mkCompletedTask td project_name])

/-! ### Definitions taken from the wording of the spec, for refinement
theorems comparing them with the code embeddings above. -/

/-- The category assignment as worded by the spec: scan the fixed ordered
table in declaration order and assign the first category one of whose
keyword substrings occurs in the lowered title; `Other` when no keyword
of any category matches. -/
def spec_assign_category (title : String) : String :=
  (((category_keywords.find? fun p => p.2.any fun k => strContains (strLower title) k).map
    Prod.fst).getD "Other")

/-- The priority rule as worded by the spec: `High` on any high keyword,
else `Medium` on any medium keyword, else `Normal`, in that order. -/
def spec_priority (title : String) : String :=
  if containsAny (strLower title) high_priority_words then "High"
  else if containsAny (strLower title) medium_priority_words then "Medium"
  else "Normal"

/-- The duration estimate as worded by the spec: the fixed base table,
then at most one multiplier chosen by first match (quick ×0.5, else
major ×1.5, else setup ×1.2), rounded to one decimal; in tenths of an
hour. -/
def spec_estimate_duration (title category : String) : Nat :=
  let base := lookupDefault duration_map category 10
  roundHundredthsToTenths
    (if containsAny (strLower title) quick_words then base * 5
     else if containsAny (strLower title) major_words then base * 15
     else if containsAny (strLower title) setup_words then base * 12
     else base * 10)

/-- Helper for `spec_is_duration_label`: the character list is a nonempty
digit run followed by exactly `suf`. -/
def spec_pattern_with (cs suf : List Char) : Bool :=
  let k := cs.length - suf.length
  decide (0 < k) && decide (cs.drop k = suf) && (cs.take k).all Char.isDigit

/-- A label of the exact shape the spec claims for the label-based
duration path: an integer followed by a space and `mins` or `min`. -/
def spec_is_duration_label (label : String) : Bool :=
  spec_pattern_with label.data " mins".data || spec_pattern_with label.data " min".data

/-! ### Further helper definitions used by the theorems. -/

/-- Whether any keyword of any row of a `(name, keywords)` table occurs
in `content` (the negation is the fall-through condition of the scans). -/
def tableMatches (content : String) (table : List (String × List String)) : Bool :=
  table.any fun p => containsAny content p.2

/-- Whether any keyword of a `(keyword, value)` map occurs in `content`. -/
def typeMapMatches (content : String) (pairs : List (String × String)) : Bool :=
  pairs.any fun p => strContains content p.1

/-- The classification pipeline as invoked by `generate_report`:
`enhance_description` followed by `estimate_duration` on the resulting
category. -/
def classify_task (title : String) (labels : List String) : Enhanced × Nat :=
  let enhanced := enhance_description title labels
  (enhanced, estimate_duration title enhanced.category)

/-- A concrete stand-in for the timestamp parser, used to instantiate the
`calculate_actual_duration` theorem: `end` is two hours after `start`. -/
def exampleParse : String → Option ℚ :=
  fun s => if s = "end" then some 7200 else if s = "start" then some 0 else none

/-- A concrete `task_data` dict used to instantiate the `save_task`
theorem. -/
def exampleTaskData : TaskData :=
  { task_id := "42"
    content := "finish report"
    completed_at := "2024-01-01T00:00:00Z"
    project_id := none
    labels := none
    priority := none
    description := none }

/-! ### General lemmas about the scan loops. -/

theorem containsAny_of_mem {content k : String} {kws : List String}
    (hk : k ∈ kws) (h : strContains content k = true) :
    containsAny content kws = true := by
  simp only [containsAny, List.any_eq_true]
  exact ⟨k, hk, h⟩

theorem strContains_min_of_mins {l : String}
    (h : strContains l "mins" = true) : strContains l "min" = true := by
  have h' : "mins".data <:+: l.data := of_decide_eq_true h
  have hm : "min".data <:+: "mins".data := by decide
  exact decide_eq_true (hm.trans h')

theorem roundRat1_intCast (n : ℤ) : roundRat1 ((n : ℚ)) = (n : ℚ) := by
  unfold roundRat1 roundHalfEvenInt
  rw [show ((n : ℚ) * 10) = (((n * 10 : ℤ)) : ℚ) by push_cast; ring, Int.floor_intCast,
    sub_self, if_pos (by norm_num : (0 : ℚ) < 1 / 2)]
  push_cast
  exact mul_div_cancel_right₀ _ (by norm_num)

theorem scanKeywordTable_eq_find (content dflt : String) :
    ∀ table : List (String × List String),
      scanKeywordTable content dflt table =
        ((table.find? fun p => containsAny content p.2).map Prod.fst).getD dflt
  | [] => rfl
  | (name, kws) :: rest => by
      by_cases h : containsAny content kws = true
      · simp [scanKeywordTable, h, List.find?_cons]
      · simp [scanKeywordTable, h, List.find?_cons,
          scanKeywordTable_eq_find content dflt rest]

theorem scanKeywordTable_eq_default (content dflt : String) :
    ∀ table : List (String × List String),
      tableMatches content table = false →
      scanKeywordTable content dflt table = dflt
  | [], _ => rfl
  | (name, kws) :: rest, h => by
      rw [tableMatches, List.any_cons, Bool.or_eq_false_iff] at h
      simp only [scanKeywordTable, h.1, Bool.false_eq_true, if_false]
      exact scanKeywordTable_eq_default content dflt rest h.2

theorem scanTypeMap_eq_default (content dflt : String) :
    ∀ pairs : List (String × String),
      typeMapMatches content pairs = false →
      scanTypeMap content dflt pairs = dflt
  | [], _ => rfl
  | (kw, ty) :: rest, h => by
      rw [typeMapMatches, List.any_cons, Bool.or_eq_false_iff] at h
      simp only [scanTypeMap, h.1, Bool.false_eq_true, if_false]
      exact scanTypeMap_eq_default content dflt rest h.2

/-! ### Claim C1. -/

/-- Claim C1, counterexample: the title `march article draft` contains
both `article` and `draft`, yet the classifier assigns `Direct Action`
(the keyword `march` matches the earlier table row), not `Education`. -/
theorem c1_article_draft_counterexample :
    strContains (strLower "march article draft") "article" = true ∧
    strContains (strLower "march article draft") "draft" = true ∧
    (enhance_description "march article draft" []).category = "Direct Action" ∧
    (enhance_description "march article draft" []).category ≠ "Education" := by
  decide

/-- Claim C1 (amended): the classifier lowercases the title and scans the
fixed category table in declaration order, assigning the first category
with a matching keyword substring and `Other` when none matches; and
every title containing both `article` and `draft` **and no Direct Action
keyword** is classified `Education`. -/
theorem c1_category_first_match :
    (∀ title labels, (enhance_description title labels).category = spec_assign_category title) ∧
    (∀ title labels,
      containsAny (strLower title) direct_action_keywords = false →
      strContains (strLower title) "article" = true →
      strContains (strLower title) "draft" = true →
      (enhance_description title labels).category = "Education") := by
  constructor
  · intro t l
    show scanKeywordTable (strLower t) "Other" category_keywords = spec_assign_category t
    rw [scanKeywordTable_eq_find]
    rfl
  · intro t l h1 h2 _h3
    have he : containsAny (strLower t) education_keywords = true :=
      containsAny_of_mem (by decide) h2
    show scanKeywordTable (strLower t) "Other" category_keywords = "Education"
    rw [category_keywords]
    simp only [scanKeywordTable, h1, he, Bool.false_eq_true, if_false, if_true]

/-- Claim C1, witness: the title `article draft` (no Direct Action
keyword) is classified `Education`. -/
theorem c1_category_first_match_witness :
    (enhance_description "article draft" []).category = "Education" :=
  c1_category_first_match.2 "article draft" [] (by decide) (by decide) (by decide)

/-! ### Claim C2. -/

/-- Claim C2: the duration estimator is the fixed base table followed by
at most one multiplier (first match: quick ×0.5, else major ×1.5, else
setup ×1.2), rounded to one decimal (values in tenths of an hour); and
every `Meeting/Communication` title containing `quick` estimates to 0.8
hours (8 tenths). -/
theorem c2_estimate_duration_spec :
    (∀ title category, estimate_duration title category = spec_estimate_duration title category) ∧
    (∀ title, strContains (strLower title) "quick" = true →
      estimate_duration title "Meeting/Communication" = 8) := by
  constructor
  · intro t c
    rfl
  · intro t h
    have hq : containsAny (strLower t) quick_words = true :=
      containsAny_of_mem (by decide) h
    simp only [estimate_duration, hq, eq_self_iff_true, if_true]
    decide

/-- Claim C2, witness: `Quick call with coalition` in category
`Meeting/Communication` estimates to 0.8 hours. -/
theorem c2_estimate_duration_spec_witness :
    estimate_duration "Quick call with coalition" "Meeting/Communication" = 8 :=
  c2_estimate_duration_spec.2 "Quick call with coalition" (by decide)

/-! ### Claim C3. -/

/-- Claim C3: the actual-duration reconciler yields a value exactly when
both timestamps are present, both parse, and the elapsed time in hours
is strictly between 0 and 720; the value is then the elapsed hours
rounded to one decimal.  Otherwise (missing timestamp, parse failure,
non-positive or too-large delta) it yields `none`; the embedding being a
total function models the bare `except` that keeps every exception from
the caller.  The hypothesis `parse "" = none` records that
`datetime.fromisoformat` fails on the empty string (the Python
truthiness test filters the empty string before parsing). -/
theorem c3_actual_duration_characterisation :
    ∀ parse : String → Option ℚ, parse "" = none →
    ∀ completed_at item_date : Option String,
    ((calculate_actual_duration parse completed_at item_date).isSome = true ↔
      ∃ s1 s2 t1 t2, completed_at = some s1 ∧ item_date = some s2 ∧
        parse s1 = some t1 ∧ parse s2 = some t2 ∧
        0 < (t1 - t2) / 3600 ∧ (t1 - t2) / 3600 < 720) ∧
    (∀ s1 s2 t1 t2, completed_at = some s1 → item_date = some s2 →
      parse s1 = some t1 → parse s2 = some t2 →
      0 < (t1 - t2) / 3600 → (t1 - t2) / 3600 < 720 →
      calculate_actual_duration parse completed_at item_date =
        some (roundRat1 ((t1 - t2) / 3600))) := by
  intro parse hp ca idate
  have key : ∀ s1 s2 t1 t2, ca = some s1 → idate = some s2 →
      parse s1 = some t1 → parse s2 = some t2 →
      0 < (t1 - t2) / 3600 → (t1 - t2) / 3600 < 720 →
      calculate_actual_duration parse ca idate =
        some (roundRat1 ((t1 - t2) / 3600)) := by
    intro s1 s2 t1 t2 h1 h2 hp1 hp2 hpos hlt
    subst h1; subst h2
    have hne : ¬(s1 = "" ∨ s2 = "") := by
      rintro (rfl | rfl)
      · rw [hp] at hp1; exact Option.noConfusion hp1
      · rw [hp] at hp2; exact Option.noConfusion hp2
    have hcond : 0 < (t1 - t2) / 3600 ∧ (t1 - t2) / 3600 < 24 * 30 :=
      ⟨hpos, by linarith⟩
    simp only [calculate_actual_duration, if_neg hne, hp1, hp2]
    rw [if_pos hcond]
  refine ⟨⟨?_, ?_⟩, key⟩
  · intro h
    match ca, idate with
    | none, _ => simp [calculate_actual_duration] at h
    | some s1, none => simp [calculate_actual_duration] at h
    | some s1, some s2 =>
      by_cases hne : s1 = "" ∨ s2 = ""
      · rw [calculate_actual_duration, if_pos hne] at h
        simp at h
      · rw [calculate_actual_duration, if_neg hne] at h
        rcases hp1 : parse s1 with _ | t1 <;> rcases hp2 : parse s2 with _ | t2 <;>
          rw [hp1, hp2] at h
        · simp at h
        · simp at h
        · simp at h
        · dsimp only at h
          by_cases hcond : 0 < (t1 - t2) / 3600 ∧ (t1 - t2) / 3600 < 24 * 30
          · exact ⟨s1, s2, t1, t2, rfl, rfl, hp1, hp2, hcond.1, by linarith [hcond.2]⟩
          · rw [if_neg hcond] at h
            simp at h
  · rintro ⟨s1, s2, t1, t2, rfl, rfl, hp1, hp2, hpos, hlt⟩
    rw [key s1 s2 t1 t2 rfl rfl hp1 hp2 hpos hlt]
    rfl

/-- Claim C3, witness: with a parser that maps `end` to 7200 s and
`start` to 0 s, the reconciler returns 2.0 hours. -/
theorem c3_actual_duration_characterisation_witness :
    calculate_actual_duration exampleParse (some "end") (some "start") = some 2 := by
  have h := (c3_actual_duration_characterisation exampleParse (by decide)
      (some "end") (some "start")).2
    "end" "start" 7200 0 rfl rfl (by decide) (by decide) (by norm_num) (by norm_num)
  rw [h, show ((7200 : ℚ) - 0) / 3600 = ((2 : ℤ) : ℚ) by norm_num, roundRat1_intCast]
  norm_num

/-! ### Claim C4. -/

/-- Claim C4, counterexample: the label `admin2` does not have the
`<N> mins` / `<N> min` shape, yet the code derives 0.03 hours
(3 hundredths) from it, because the test is only `min` occurring as a
substring (inside `admin`) plus any digit; the claim instead demands
0.0 for a list with no pattern label. -/
theorem c4_label_pattern_counterexample :
    extract_hours_from_labels ["admin2"] = 3 ∧
    spec_is_duration_label "admin2" = false ∧
    (3 : Nat) ≠ 0 := by
  decide

/-- Claim C4 (amended): the label-based duration path takes the first
label that contains `min` as a substring and contains at least one
digit, extracts the first digit run `N`, and returns `N / 60` hours
rounded to two decimals (hundredths); a label containing `min` without
digits is skipped; if no label qualifies the result is 0.  The label
`45 mins` yields 0.75 hours. -/
theorem c4_extract_hours_first_min_label :
    (∀ labels : List String,
      (∀ l ∈ labels, strContains l "min" = false ∨ firstNat? l.data = none) →
      extract_hours_from_labels labels = 0) ∧
    (∀ pre label rest m,
      (∀ l ∈ pre, strContains l "min" = false ∨ firstNat? l.data = none) →
      strContains label "min" = true → firstNat? label.data = some m →
      extract_hours_from_labels (pre ++ label :: rest) = minutesToHundredths m) ∧
    extract_hours_from_labels ["45 mins"] = 75 := by
  have skip : ∀ (l : String) (rest : List String),
      strContains l "min" = false ∨ firstNat? l.data = none →
      extract_hours_from_labels (l :: rest) = extract_hours_from_labels rest := by
    intro l rest h
    rcases h with hmin | hnone
    · have hmins : strContains l "mins" = false := by
        by_cases hm : strContains l "mins" = true
        · rw [strContains_min_of_mins hm] at hmin; exact Bool.noConfusion hmin
        · simpa using hm
      simp [extract_hours_from_labels, hmin, hmins]
    · by_cases hcond : (strContains l "mins" || strContains l "min") = true
      · simp [extract_hours_from_labels, hcond, hnone]
      · simp only [Bool.or_eq_true, not_or, Bool.not_eq_true] at hcond
        simp [extract_hours_from_labels, hcond.1, hcond.2]
  refine ⟨?_, ?_, by decide⟩
  · intro labels
    induction labels with
    | nil => intro _; rfl
    | cons l rest ih =>
      intro h
      rw [skip l rest (h l (by simp))]
      exact ih fun x hx => h x (by simp [hx])
  · intro pre label rest m
    induction pre with
    | nil =>
      intro _ hmin hnat
      have hcond : (strContains label "mins" || strContains label "min") = true := by
        simp [hmin]
      simp only [List.nil_append, extract_hours_from_labels, hcond, if_true, hnat]
    | cons p pre' ih =>
      intro hpre hmin hnat
      rw [List.cons_append, skip p _ (hpre p (by simp))]
      exact ih (fun x hx => hpre x (by simp [hx])) hmin hnat

/-- Claim C4, witness: with a first label that has no `min`, the label
`45 mins` determines 0.75 hours (75 hundredths). -/
theorem c4_extract_hours_first_min_label_witness :
    extract_hours_from_labels ["urgent", "45 mins"] = 75 := by
  have h := c4_extract_hours_first_min_label.2.1 ["urgent"] "45 mins" [] 45
    (by decide) (by decide) (by decide)
  exact h.trans (by decide)

/-! ### Claim C5. -/

/-- Claim C5: priority is `High` on any of the high keywords, else
`Medium` on any of the medium keywords, else `Normal`, with the High
check first; in particular a title matching both sets is `High`. -/
theorem c5_priority_rule :
    (∀ title labels, (enhance_description title labels).priority = spec_priority title) ∧
    (∀ title labels,
      containsAny (strLower title) high_priority_words = true →
      containsAny (strLower title) medium_priority_words = true →
      (enhance_description title labels).priority = "High") := by
  constructor
  · intro t l; rfl
  · intro t l hh _hm
    simp only [enhance_description, hh, eq_self_iff_true, if_true]

/-- Claim C5, witness: `urgent check` matches both keyword sets and gets
priority `High`. -/
theorem c5_priority_rule_witness :
    (enhance_description "urgent check" []).priority = "High" :=
  c5_priority_rule.2 "urgent check" [] (by decide) (by decide)

/-! ### Claim C6. -/

/-- Claim C6: classification is deterministic — it is a pure function of
`(title, labels)`; two invocations on equal inputs give equal category,
task type, focus area, priority, labels, and estimated hours.  The
embedding itself witnesses that the source reads no state beyond its
arguments. -/
theorem c6_classification_deterministic :
    ∀ (t1 t2 : String) (l1 l2 : List String), t1 = t2 → l1 = l2 →
      classify_task t1 l1 = classify_task t2 l2 := by
  intro t1 t2 l1 l2 ht hl
  rw [ht, hl]

/-- Claim C6, witness: two identical invocations on `Read article` agree. -/
theorem c6_classification_deterministic_witness :
    classify_task "Read article" ["x"] = classify_task "Read article" ["x"] :=
  c6_classification_deterministic "Read article" "Read article" ["x"] ["x"] rfl rfl

/-! ### Claim C7. -/

/-- Claim C7: the empty title yields all the documented defaults —
category `Other`, task type `General Organizing`, focus area
`General Anti-Imperialism`, priority `Normal` (with the labels echoed),
and an estimated duration of 1.0 hours (10 tenths). -/
theorem c7_empty_title_defaults :
    ∀ labels : List String,
      enhance_description "" labels =
        ⟨"Other", "General Organizing", "General Anti-Imperialism", "Normal", labels⟩ ∧
      estimate_duration "" "Other" = 10 := by
  intro l
  exact ⟨rfl, by decide⟩

/-! ### Claim C8. -/

/-- Claim C8: the classifier is total — for every title and label list,
`enhance_description` and `estimate_duration` return a value — and when
no keyword of any table matches, it falls through to the documented
defaults rather than failing. -/
theorem c8_classifier_total_defaults :
    ∀ title labels,
      (∃ e n, enhance_description title labels = e ∧
        estimate_duration title e.category = n) ∧
      (tableMatches (strLower title) category_keywords = false →
       typeMapMatches (strLower title) task_type_map = false →
       tableMatches (strLower title) focus_keywords = false →
       containsAny (strLower title) high_priority_words = false →
       containsAny (strLower title) medium_priority_words = false →
       enhance_description title labels =
         ⟨"Other", "General Organizing", "General Anti-Imperialism", "Normal", labels⟩) := by
  intro t l
  refine ⟨⟨_, _, rfl, rfl⟩, ?_⟩
  intro h1 h2 h3 h4 h5
  have hc := scanKeywordTable_eq_default (strLower t) "Other" category_keywords h1
  have ht := scanTypeMap_eq_default (strLower t) "General Organizing" task_type_map h2
  have hf := scanKeywordTable_eq_default (strLower t) "General Anti-Imperialism" focus_keywords h3
  simp only [enhance_description, hc, ht, hf, h4, h5, Bool.false_eq_true, if_false]

/-- Claim C8, witness: a keyword-free title falls through to every
default. -/
theorem c8_classifier_total_defaults_witness :
    enhance_description "xyzzy" ["l1"] =
      ⟨"Other", "General Organizing", "General Anti-Imperialism", "Normal", ["l1"]⟩ :=
  (c8_classifier_total_defaults "xyzzy" ["l1"]).2
    (by decide) (by decide) (by decide) (by decide) (by decide)

/-! ### Claim C9. -/

/-- Claim C9: `save_task` is an insert-if-absent keyed on `task_id`:
with the key present it returns `False` and leaves the store unchanged
(no overwrite); with the key absent it appends exactly the constructed
row and returns `True`; and re-saving immediately after any save is a
no-op returning `False`. -/
theorem c9_save_task_insert_if_absent :
    ∀ (db : List CompletedTask) (td : TaskData) (pn : Option String),
      (task_exists db td.task_id = true → save_task db td pn = (false, db)) ∧
      (task_exists db td.task_id = false →
        save_task db td pn = (true, db ++ [mkCompletedTask td pn])) ∧
      save_task (save_task db td pn).2 td pn = (false, (save_task db td pn).2) := by
  intro db td pn
  refine ⟨fun h => by simp [save_task, h], fun h => by simp [save_task, h], ?_⟩
  by_cases h : task_exists db td.task_id = true
  · simp [save_task, h]
  · have h' : task_exists db td.task_id = false := by simpa using h
    have hx : task_exists (db ++ [mkCompletedTask td pn]) td.task_id = true := by
      simp [task_exists, mkCompletedTask]
    simp [save_task, h', hx]

/-- Claim C9, witness: saving a fresh task inserts it and returns
`True`; saving it again returns `False` and leaves the store as it was. -/
theorem c9_save_task_insert_if_absent_witness :
    save_task [] exampleTaskData none = (true, [mkCompletedTask exampleTaskData none]) ∧
    save_task [mkCompletedTask exampleTaskData none] exampleTaskData none =
      (false, [mkCompletedTask exampleTaskData none]) := by
  have h := c9_save_task_insert_if_absent [] exampleTaskData none
  have h2 := h.2.1 (by decide)
  refine ⟨by simpa using h2, ?_⟩
  have h3 := h.2.2
  rw [h2] at h3
  simpa using h3

/-! ### Claim C10. -/

/-- Claim C10: the labels argument influences nothing computed — for any
two label lists the category, task type, focus area, and priority
coincide, and the labels field merely echoes the input. -/
theorem c10_labels_only_echoed :
    ∀ (title : String) (l1 l2 : List String),
      (enhance_description title l1).category = (enhance_description title l2).category ∧
      (enhance_description title l1).task_type = (enhance_description title l2).task_type ∧
      (enhance_description title l1).focus_area = (enhance_description title l2).focus_area ∧
      (enhance_description title l1).priority = (enhance_description title l2).priority ∧
      (enhance_description title l1).labels = l1 :=
  fun _ _ _ => ⟨rfl, rfl, rfl, rfl, rfl⟩

end Todoist
